import Mathlib

/-!
Verification of the table dump/recover protocol of the database-dumper
utility (`src/main.py`).  The embedding models the row codec, the table
dumper, the table recoverer and the dataset orchestrator as pure Lean
functions over an explicit filesystem- and database-state model.  Machine
strings are Lean `String`s (lists of characters); SQL NULL is `none`.
-/

namespace DBDumper

/-- A database cell value as handed over by the DictCursor: `none` models SQL
NULL (Python `None`), `some s` a string value. -/
abbrev Value := Option String

/-- Python `str()` applied to a cell value: `str(None)` is the text `"None"`,
a string prints as itself. -/
def pyStr : Value → String
  | none => "None"
  | some s => s

/-- One entry of the `desc <table>` introspection output, as stored in
`desc_table.yaml`: the `Field` and `Type` keys are the only ones the program
reads; the remaining keys are carried verbatim. -/
structure Column where
  Field : String
  Type' : String
  Null : String
  Key : String
  Default : Value
  Extra : String
  deriving DecidableEq

/-- `LONG_COLUMN` from the source: the exact declared-type strings whose
values are stored out-of-line. -/
def LONG_COLUMN : List String := ["text", "mediumtext", "longtext"]

/-- A row as returned by the DictCursor: a mapping from column name to
cell value. -/
abbrev Row := List (String × Value)

/-- Python `row[field]` dictionary access (the queried fields are present for
rows produced by `select *` on the described table). -/
def rowGet (r : Row) (f : String) : Value :=
  match List.lookup f r with
  | some v => v
  | none => none

/-! ### JSON serialization of a list of strings (`json.dumps` / `json.loads`) -/

/-- Lower-case hexadecimal digit, as produced by `json.dumps` escapes. -/
def hexDigit (n : Nat) : Char :=
  if n < 10 then Char.ofNat ('0'.toNat + n) else Char.ofNat ('a'.toNat + (n - 10))

/-- Numeric value of a hexadecimal digit character. -/
def hexVal (c : Char) : Option Nat :=
  if '0' ≤ c ∧ c ≤ '9' then some (c.toNat - '0'.toNat)
  else if 'a' ≤ c ∧ c ≤ 'f' then some (c.toNat - 'a'.toNat + 10)
  else if 'A' ≤ c ∧ c ≤ 'F' then some (c.toNat - 'A'.toNat + 10)
  else none

/-- Four-digit hexadecimal form of a code point below `0x10000`. -/
def hex4 (n : Nat) : List Char :=
  [hexDigit (n / 4096 % 16), hexDigit (n / 256 % 16), hexDigit (n / 16 % 16), hexDigit (n % 16)]

/-- The escape `json.dumps` applies to one character of a string: quote and
backslash are escaped, control characters use the short escapes or a
`\uXXXX` escape, all other characters are emitted verbatim. -/
def jsonEscapeChar (c : Char) : List Char :=
  if c = '"' then ['\\', '"']
  else if c = '\\' then ['\\', '\\']
  else if c = '\x08' then ['\\', 'b']
  else if c = '\x0c' then ['\\', 'f']
  else if c = '\n' then ['\\', 'n']
  else if c = '\r' then ['\\', 'r']
  else if c = '\t' then ['\\', 't']
  else if c.toNat < 0x20 then '\\' :: 'u' :: hex4 c.toNat
  else [c]

/-- Escape every character of a string body. -/
def escList (l : List Char) : List Char := (l.map jsonEscapeChar).flatten

/-- `json.dumps` of one string, including the surrounding quotes. -/
def jsonDumpStringData (s : String) : List Char := '"' :: (escList s.data ++ ['"'])

/-- The comma-separated element list of `json.dumps` of a list of strings
(the default separator of `json.dumps` is a comma followed by a space). -/
def jsonDumpsElems : List String → List Char
  | [] => []
  | [s] => jsonDumpStringData s
  | s :: s2 :: rest => jsonDumpStringData s ++ (',' :: ' ' :: jsonDumpsElems (s2 :: rest))

/-- `json.dumps` of a list of strings. -/
def jsonDumps (l : List String) : String := String.mk ('[' :: (jsonDumpsElems l ++ [']']))

/-- Inverse of the short escapes accepted inside a JSON string. -/
def unescapeChar (c : Char) : Option Char :=
  if c = '"' then some '"'
  else if c = '\\' then some '\\'
  else if c = '/' then some '/'
  else if c = 'b' then some '\x08'
  else if c = 'f' then some '\x0c'
  else if c = 'n' then some '\n'
  else if c = 'r' then some '\r'
  else if c = 't' then some '\t'
  else none

/-- Parse the body of a JSON string after its opening quote; returns the
decoded characters and the input remaining after the closing quote. -/
def parseJStr : List Char → Option (List Char × List Char)
  | [] => none
  | c :: cs =>
    if c = '"' then some ([], cs)
    else if c = '\\' then
      match cs with
      | [] => none
      | e :: cs2 =>
        if e = 'u' then
          match cs2 with
          | h1 :: h2 :: h3 :: h4 :: cs3 =>
            match hexVal h1, hexVal h2, hexVal h3, hexVal h4 with
            | some v1, some v2, some v3, some v4 =>
              match parseJStr cs3 with
              | some (content, rest) =>
                  some (Char.ofNat (v1 * 4096 + v2 * 256 + v3 * 16 + v4) :: content, rest)
              | none => none
            | _, _, _, _ => none
          | _ => none
        else
          match unescapeChar e with
          | some u =>
            match parseJStr cs2 with
            | some (content, rest) => some (u :: content, rest)
            | none => none
          | none => none
    else
      match parseJStr cs with
      | some (content, rest) => some (c :: content, rest)
      | none => none

/-- Skip JSON whitespace. -/
def skipWs : List Char → List Char
  | [] => []
  | c :: cs => if c = ' ' ∨ c = '\t' ∨ c = '\n' ∨ c = '\r' then skipWs cs else c :: cs

/-- Parse the element list of a nonempty JSON array of strings, positioned at
the first element; fuelled to make the recursion structural. -/
def parseItemsF : Nat → List Char → Option (List String × List Char)
  | 0, _ => none
  | fuel + 1, cs =>
    match cs with
    | '"' :: cs1 =>
      match parseJStr cs1 with
      | some (content, cs2) =>
        match skipWs cs2 with
        | ',' :: cs3 =>
          match parseItemsF fuel (skipWs cs3) with
          | some (items, rest) => some (String.mk content :: items, rest)
          | none => none
        | ']' :: cs3 => some ([String.mk content], cs3)
        | _ => none
      | none => none
    | _ => none

/-- The body of a JSON array after the opening bracket and whitespace: the
empty array closes immediately, otherwise the element list is parsed and
only trailing whitespace may remain. -/
def jsonLoadsTail (fuel : Nat) : List Char → Option (List String)
  | ']' :: cs2 => if (skipWs cs2).isEmpty then some [] else none
  | cs2 =>
    match parseItemsF fuel cs2 with
    | some (items, rest) => if (skipWs rest).isEmpty then some items else none
    | none => none

/-- A JSON document that is an array of strings: optional leading
whitespace, then the array. -/
def jsonLoadsTop (fuel : Nat) : List Char → Option (List String)
  | '[' :: cs => jsonLoadsTail fuel (skipWs cs)
  | _ => none

/-- `json.loads` restricted to JSON arrays of strings (the only shape the
program ever reads back); `none` models a raised `JSONDecodeError`. -/
def jsonLoads (s : String) : Option (List String) :=
  jsonLoadsTop (s.data.length + 1) (skipWs s.data)

/-! ### Line iteration over a text file (`for line in f`) -/

/-- Split a character stream into lines the way Python file iteration does:
each line keeps its trailing newline, a final unterminated chunk is a line of
its own, and an empty stream has no lines. -/
def splitLinesData : List Char → List (List Char)
  | [] => []
  | c :: cs =>
    if c = '\n' then ['\n'] :: splitLinesData cs
    else
      match splitLinesData cs with
      | [] => [[c]]
      | l :: ls => (c :: l) :: ls

/-- The lines of a file's content, Python-iteration style. -/
def fileLines (s : String) : List String := (splitLinesData s.data).map String.mk

/-! ### Table dumper (`dump_table`) -/

/-- One iteration of the row loop of `dump_table`: walk the columns in
descriptor order producing the `text_list` entries and the sidecar files
written for this row (keyed by sidecar directory name and row index `i`). -/
def encodeRow (row : Row) (i : Nat) : List Column → List String × List ((String × Nat) × String)
  | [] => ([], [])
  | c :: cols =>
    let rest := encodeRow row i cols
    if c.Type' ∈ LONG_COLUMN then
      ("_" :: rest.1, (("column_" ++ c.Field, i), pyStr (rowGet row c.Field)) :: rest.2)
    else
      (pyStr (rowGet row c.Field) :: rest.1, rest.2)

/-- The row loop of `dump_table` over `enumerate(get_rows(...))` starting at
index `i`: accumulates the `rows` string and the sidecar files written. -/
def dumpRows (columns : List Column) : Nat → List Row → String × List ((String × Nat) × String)
  | _, [] => ("", [])
  | i, r :: rs =>
    let enc := encodeRow r i columns
    let rest := dumpRows columns (i + 1) rs
    (jsonDumps enc.1 ++ "\n" ++ rest.1, enc.2 ++ rest.2)

/-- The on-disk bundle `dump_table` writes into one table directory. -/
structure TableDir where
  create_table_sql : String
  desc_table_yaml : List Column
  sidecar_dirs : List String
  sidecar_files : List ((String × Nat) × String)
  rows_txt : String
  deriving DecidableEq

/-- `dump_table`: write the create statement, the column descriptors, one
eagerly-created sidecar directory per long column, the sidecar files and the
`rows.txt` artifact. -/
def dump_table (create_stmt : String) (columns : List Column) (rows : List Row) : TableDir :=
  let enc := dumpRows columns 0 rows
  ⟨create_stmt, columns,
   (columns.filter (fun c => c.Type' ∈ LONG_COLUMN)).map (fun c => "column_" ++ c.Field),
   enc.2, enc.1⟩

/-- Reading `<dir>/<i>.txt` inside a table directory; `none` models a raised
`FileNotFoundError`. -/
def sidecar_read (td : TableDir) (d : String) (i : Nat) : Option String :=
  List.lookup (d, i) td.sidecar_files

/-! ### Filesystem and database state -/

/-- An immediate entry of the dataset root: a plain file or a table
directory. -/
inductive DatasetEntry
  | fileEntry (content : String)
  | dirEntry (td : TableDir)
  deriving DecidableEq

/-- The state of the path at the dataset root location. -/
inductive PathState
  | absent
  | fileAt (content : String)
  | dirAt (entries : List (String × DatasetEntry))
  deriving DecidableEq

/-- One table of the live source database being dumped: its name, its
`show create table` statement, its `desc` output and its `select *` rows. -/
structure SourceTable where
  name : String
  create_stmt : String
  columns : List Column
  rows : List Row

/-- Python-level exceptions reachable in the modelled fragment. -/
inductive PyErr
  | internalError (msg : String)
  | operationalError (msg : String)
  | fileExistsError
  | fileNotFoundError (path : List String)
  | jsonDecodeError
  deriving DecidableEq

/-- The branchwise removal `dump` performs on the dataset root:
`shutil.rmtree` for a directory, `os.remove` for a file, nothing when the
path does not exist. -/
def prepare_data_dir : PathState → PathState
  | .dirAt _ => .absent
  | .fileAt _ => .absent
  | .absent => .absent

/-- `os.mkdir`: create a fresh empty directory, failing if the path exists. -/
def os_mkdir : PathState → Except PyErr PathState
  | .absent => .ok (.dirAt [])
  | _ => .error .fileExistsError

/-- The per-table phase of `dump`: one entry per source table, named by the
table, holding the `dump_table` output. -/
def dump_tables : PathState → List SourceTable → PathState
  | .dirAt es, src =>
      .dirAt (es ++ src.map (fun s => (s.name, .dirEntry (dump_table s.create_stmt s.columns s.rows))))
  | st, _ => st

/-- `dump`: remove whatever occupies the dataset root, recreate it as an
empty directory, then dump every source table into it. -/
def dump (st : PathState) (src : List SourceTable) : Except PyErr PathState :=
  match os_mkdir (prepare_data_dir st) with
  | .error e => .error e
  | .ok st1 => .ok (dump_tables st1 src)

/-- The recover-side database: a mapping from table name to its rows. -/
structure DB where
  tables : List (String × List (List Value))
  deriving DecidableEq

/-- Look up a table of the database by name. -/
def lookupTable (db : DB) (t : String) : Option (List (List Value)) :=
  List.lookup t db.tables

/-- Engine semantics of `DROP TABLE t`: drop the table when it exists,
otherwise raise the engine's error 1051 whose text names the unknown
table. -/
def applyDrop (db : DB) (t : String) : Except PyErr DB :=
  match lookupTable db t with
  | some _ => .ok ⟨db.tables.filter (fun p => p.1 ≠ t)⟩
  | none => .error (.internalError ("(1051, \"Unknown table '" ++ t ++ "'\")"))

/-- Substring occurrence on character lists, the success condition of
Python's `str.index`. -/
def containsSub (sub : List Char) : List Char → Bool
  | [] => sub.isEmpty
  | c :: cs => List.isPrefixOf sub (c :: cs) || containsSub sub cs

/-- `sub in s` as a substring test (Python `s.index(sub)` succeeding). -/
def strContains (s sub : String) : Bool := containsSub sub.data s.data

/-- The suppression condition of the `except` clause in
`drop_table_if_exists`: only a `pymysql.err.InternalError` whose text
contains `"Unknown table "` is swallowed. -/
def drop_error_suppressed : PyErr → Bool
  | .internalError msg => strContains msg "Unknown table "
  | _ => false

/-- `drop_table_if_exists`: execute `DROP TABLE t`, suppressing exactly the
unknown-table internal error and re-raising anything else. -/
def drop_table_if_exists (db : DB) (t : String) : Except PyErr DB :=
  match applyDrop db t with
  | .ok db1 => .ok db1
  | .error e => if drop_error_suppressed e then .ok db else .error e

/-- Engine semantics of executing the stored create statement for table `t`:
the table exists afterwards, empty. -/
def applyCreate (db : DB) (t : String) : DB :=
  ⟨(t, []) :: db.tables.filter (fun p => p.1 ≠ t)⟩

/-- Engine semantics of the parameterized single-row INSERT: every parameter
is a string and is stored as that string. -/
def dbInsert (db : DB) (t : String) (params : List String) : DB :=
  ⟨db.tables.map (fun p =>
    if p.1 = t then (p.1, p.2 ++ [params.map (fun s => (some s : Value))]) else p)⟩

/-- One call of `execute(conn, stmt, data)`: the statement text and its
optional parameter list. -/
inductive DBOp
  | exec (stmt : String) (params : Option (List String))
  deriving DecidableEq

/-- A filesystem access performed against the dataset tree. -/
inductive FSOp
  | readFile (path : List String)
  | writeFile (path : List String) (content : String)
  deriving DecidableEq

/-- Whether a filesystem access is a pure read. -/
def FSOp.isRead : FSOp → Bool
  | .readFile _ => true
  | .writeFile _ _ => false

/-- Replay one filesystem access on a path-to-content map: reads change
nothing, writes replace the content stored at the path. -/
def applyFSOp (fs : List (List String × String)) : FSOp → List (List String × String)
  | .readFile _ => fs
  | .writeFile path content => (path, content) :: fs.filter (fun p => p.1 ≠ path)

/-- Replay a list of filesystem accesses. -/
def applyFSOps (fs : List (List String × String)) (ops : List FSOp) :
    List (List String × String) :=
  ops.foldl applyFSOp fs

/-! ### Table recoverer (`recover_table`) -/

/-- The `bigDataFlags` dictionary built by `recover_table` while enumerating
the descriptors from index `i`: the positions of long columns, mapped to
their sidecar directory names. -/
def bigDataFlagsFrom : Nat → List Column → List (Nat × String)
  | _, [] => []
  | i, c :: cols =>
    if c.Type' ∈ LONG_COLUMN then (i, "column_" ++ c.Field) :: bigDataFlagsFrom (i + 1) cols
    else bigDataFlagsFrom (i + 1) cols

/-- `bigDataFlags` for a full descriptor list. -/
def bigDataFlags (columns : List Column) : List (Nat × String) :=
  bigDataFlagsFrom 0 columns

/-- The `placeholders` list of `recover_table`: one `%s` per descriptor. -/
def placeholdersList (columns : List Column) : List String :=
  columns.map (fun _ => "%s")

/-- The INSERT template `recover_table` builds once per table. -/
def insert_stmt (t : String) (columns : List Column) : String :=
  "INSERT INTO " ++ t ++ " VALUE (" ++ String.intercalate ", " (placeholdersList columns) ++ ")"

/-- Errors raised by the recover path: a `RecoverError` or a propagated
Python-level exception. -/
inductive RErr
  | recoverError (msg : String)
  | pyError (e : PyErr)
  deriving DecidableEq

/-- Equality of fallible results is decidable, so concrete recover runs can
be checked by evaluation. -/
instance {ε α : Type} [DecidableEq ε] [DecidableEq α] : DecidableEq (Except ε α) := fun a b =>
  match a, b with
  | .ok x, .ok y =>
    if h : x = y then .isTrue (by rw [h]) else .isFalse (fun e => h (Except.ok.inj e))
  | .error x, .error y =>
    if h : x = y then .isTrue (by rw [h]) else .isFalse (fun e => h (Except.error.inj e))
  | .ok _, .error _ => .isFalse (fun e => Except.noConfusion e)
  | .error _, .ok _ => .isFalse (fun e => Except.noConfusion e)

/-- The inner loop of `recover_table` over one parsed row-line array,
starting at position `i`: a long position discards the array entry and reads
`<dir>/<lineNumber>.txt` instead, every other position keeps the entry. -/
def decode_from (td : TableDir) (tdir : List String) (flags : List (Nat × String))
    (lineNumber : Nat) : Nat → List String → Except PyErr (List String × List FSOp)
  | _, [] => .ok ([], [])
  | i, v :: vs =>
    match List.lookup i flags with
    | some d =>
      match sidecar_read td d lineNumber with
      | some content =>
        match decode_from td tdir flags lineNumber (i + 1) vs with
        | .ok (ps, fsOps) =>
            .ok (content :: ps, .readFile (tdir ++ [d, toString lineNumber ++ ".txt"]) :: fsOps)
        | .error e => .error e
      | none => .error (.fileNotFoundError (tdir ++ [d, toString lineNumber ++ ".txt"]))
    | none =>
      match decode_from td tdir flags lineNumber (i + 1) vs with
      | .ok (ps, fsOps) => .ok (v :: ps, fsOps)
      | .error e => .error e

/-- The row loop of `recover_table` over the lines of `rows.txt`: parse each
line, decode it, execute the INSERT with the decoded parameters, counting
line numbers from `n`. -/
def recover_rows (td : TableDir) (tdir : List String) (flags : List (Nat × String))
    (stmt : String) (t : String) :
    DB → Nat → List String → List DBOp × List FSOp × Except RErr DB
  | db, _, [] => ([], [], .ok db)
  | db, n, line :: rest =>
    match jsonLoads line with
    | none => ([], [], .error (.pyError .jsonDecodeError))
    | some data =>
      match decode_from td tdir flags n 0 data with
      | .error e => ([], [], .error (.pyError e))
      | .ok (params, reads) =>
        let db1 := dbInsert db t params
        let run := recover_rows td tdir flags stmt t db1 (n + 1) rest
        (.exec stmt (some params) :: run.1, reads ++ run.2.1, run.2.2)

/-- `recover_table`: require a directory, drop-if-exists, recreate from the
stored statement, rebuild the long-column position set, build the single
INSERT template and replay every row line.  Returns the `execute` calls
made, the filesystem accesses made, and the outcome. -/
def recover_table (db : DB) (entry : DatasetEntry) (t : String) :
    List DBOp × List FSOp × Except RErr DB :=
  let tdir : List String := ["data", t]
  match entry with
  | .fileEntry _ =>
      ([], [],
       .error (.recoverError ("\"" ++ String.intercalate "/" tdir ++ "\" is not a directory")))
  | .dirEntry td =>
    match drop_table_if_exists db t with
    | .error e => ([.exec ("DROP TABLE " ++ t) none], [], .error (.pyError e))
    | .ok db1 =>
      let db2 := applyCreate db1 t
      let flags := bigDataFlags td.desc_table_yaml
      let stmt := insert_stmt t td.desc_table_yaml
      let run := recover_rows td tdir flags stmt t db2 0 (fileLines td.rows_txt)
      (.exec ("DROP TABLE " ++ t) none :: .exec td.create_table_sql none :: run.1,
       .readFile (tdir ++ ["create_table.sql"]) :: .readFile (tdir ++ ["desc_table.yaml"]) ::
         .readFile (tdir ++ ["rows.txt"]) :: run.2.1,
       run.2.2)

/-- The per-entry loop of `recover` over `os.listdir(data_dir)`: each entry
is handed to `recover_table`; the first failure aborts the remaining
entries. -/
def recover_tables : DB → List (String × DatasetEntry) → List DBOp × List FSOp × Except RErr DB
  | db, [] => ([], [], .ok db)
  | db, (name, e) :: rest =>
    let run := recover_table db e name
    match run.2.2 with
    | .ok db1 =>
      let runRest := recover_tables db1 rest
      (run.1 ++ runRest.1, run.2.1 ++ runRest.2.1, runRest.2.2)
    | .error err => (run.1, run.2.1, .error err)

/-- `recover`: require the dataset root to be a directory, then recover
every listed entry in order. -/
def recover (db : DB) (root : PathState) : List DBOp × List FSOp × Except RErr DB :=
  match root with
  | .dirAt entries => recover_tables db entries
  | _ => ([], [], .error (.recoverError "\"data\" is not a directory"))

/-! ### Concrete sample tables -/

/-- The columns of the specification's end-to-end `users` scenario. -/
def usersColumns : List Column :=
  [⟨"id", "int", "NO", "PRI", none, ""⟩,
   ⟨"name", "varchar(50)", "YES", "", none, ""⟩,
   ⟨"bio", "text", "YES", "", none, ""⟩]

/-- First sample row of `users`. -/
def usersRow0 : Row := [("id", some "1"), ("name", some "Alice"), ("bio", some "hello\nworld")]

/-- Second sample row of `users` (all cells non-NULL). -/
def usersRow1 : Row := [("id", some "2"), ("name", some "Bob"), ("bio", some "short")]

/-- The sample rows of `users`. -/
def usersRows : List Row := [usersRow0, usersRow1]

/-- A single `text` column named `body`. -/
def nullBioColumns : List Column := [⟨"body", "text", "YES", "", none, ""⟩]

/-- One row whose `body` cell is NULL. -/
def nullBioRows : List Row := [[("body", (none : Value))]]

/-- A dumped table directory with no rows, for concrete replay runs. -/
def emptyIntTd : TableDir :=
  dump_table "CREATE TABLE t (id int)" [⟨"id", "int", "NO", "", none, ""⟩] []

/-- A hand-built table directory holding one sidecar file, for concrete
decode runs. -/
def oneSidecarTd : TableDir := ⟨"c", [], ["column_bio"], [(("column_bio", 0), "X")], ""⟩

/-! ### Generic helper lemmas -/

theorem strMk_append (a b : List Char) : String.mk a ++ String.mk b = String.mk (a ++ b) := rfl

theorem str_assoc (a b c : String) : a ++ b ++ c = a ++ (b ++ c) := by
  cases a; cases b; cases c
  simp [strMk_append, List.append_assoc]

theorem isPrefixOf_append_self (l t : List Char) : List.isPrefixOf l (l ++ t) = true := by
  induction l with
  | nil => simp [List.isPrefixOf]
  | cons c cs ih => simp [List.isPrefixOf, ih]

theorem containsSub_of_head (c : Char) (cs t : List Char) :
    containsSub (c :: cs) ((c :: cs) ++ t) = true := by
  simp [containsSub, isPrefixOf_append_self]

theorem containsSub_append_left (sub pre l : List Char) (h : containsSub sub l = true) :
    containsSub sub (pre ++ l) = true := by
  induction pre with
  | nil => simpa using h
  | cons c cs ih => simp [containsSub, ih]

theorem lookup_append {α β : Type} [BEq α] (k : α) (l1 l2 : List (α × β)) :
    List.lookup k (l1 ++ l2) =
      match List.lookup k l1 with
      | some v => some v
      | none => List.lookup k l2 := by
  induction l1 with
  | nil => simp [List.lookup]
  | cons p rest ih =>
    cases p with
    | mk a b => cases h : k == a <;> simp [List.lookup, h, ih]

theorem skipWs_cons_of_not_ws (c : Char) (cs : List Char)
    (h : ¬(c = ' ' ∨ c = '\t' ∨ c = '\n' ∨ c = '\r')) : skipWs (c :: cs) = c :: cs := by
  simp [skipWs, h]

/-! ### Hexadecimal digits -/

theorem hexVal_hexDigit (d : Nat) (h : d < 16) : hexVal (hexDigit d) = some d := by
  interval_cases d <;> decide

theorem hexDigit_ne_newline (d : Nat) (h : d < 16) : hexDigit d ≠ '\n' := by
  interval_cases d <;> decide

/-! ### JSON string escape and parse round trip -/

theorem parseJStr_quote (rest : List Char) : parseJStr ('"' :: rest) = some ([], rest) := by
  rw [parseJStr.eq_def]; simp

theorem parseJStr_u (d1 d2 d3 d4 : Char) (v1 v2 v3 v4 : Nat) (rest : List Char)
    (h1 : hexVal d1 = some v1) (h2 : hexVal d2 = some v2)
    (h3 : hexVal d3 = some v3) (h4 : hexVal d4 = some v4) :
    parseJStr ('\\' :: 'u' :: d1 :: d2 :: d3 :: d4 :: rest) =
      match parseJStr rest with
      | some (content, r) => some (Char.ofNat (v1 * 4096 + v2 * 256 + v3 * 16 + v4) :: content, r)
      | none => none := by
  rw [parseJStr.eq_def]; simp [h1, h2, h3, h4]

theorem parseJStr_escape (c : Char) (rest : List Char) :
    parseJStr (jsonEscapeChar c ++ rest) =
      match parseJStr rest with
      | some (content, r) => some (c :: content, r)
      | none => none := by
  by_cases h1 : c = '"'
  · subst h1; rw [show jsonEscapeChar '"' = ['\\', '"'] from by simp [jsonEscapeChar]]
    rw [parseJStr.eq_def]; simp [unescapeChar]
  by_cases h2 : c = '\\'
  · subst h2; rw [show jsonEscapeChar '\\' = ['\\', '\\'] from by simp [jsonEscapeChar]]
    rw [parseJStr.eq_def]; simp [unescapeChar]
  by_cases h3 : c = '\x08'
  · subst h3; rw [show jsonEscapeChar '\x08' = ['\\', 'b'] from by simp [jsonEscapeChar]]
    rw [parseJStr.eq_def]; simp [unescapeChar]
  by_cases h4 : c = '\x0c'
  · subst h4; rw [show jsonEscapeChar '\x0c' = ['\\', 'f'] from by simp [jsonEscapeChar]]
    rw [parseJStr.eq_def]; simp [unescapeChar]
  by_cases h5 : c = '\n'
  · subst h5; rw [show jsonEscapeChar '\n' = ['\\', 'n'] from by simp [jsonEscapeChar]]
    rw [parseJStr.eq_def]; simp [unescapeChar]
  by_cases h6 : c = '\r'
  · subst h6; rw [show jsonEscapeChar '\r' = ['\\', 'r'] from by simp [jsonEscapeChar]]
    rw [parseJStr.eq_def]; simp [unescapeChar]
  by_cases h7 : c = '\t'
  · subst h7; rw [show jsonEscapeChar '\t' = ['\\', 't'] from by simp [jsonEscapeChar]]
    rw [parseJStr.eq_def]; simp [unescapeChar]
  by_cases h8 : c.toNat < 0x20
  · have e1 : c.toNat / 4096 % 16 = 0 := by omega
    have e2 : c.toNat / 256 % 16 = 0 := by omega
    have e3 : c.toNat / 16 % 16 < 16 := Nat.mod_lt _ (by omega)
    have e4 : c.toNat % 16 < 16 := Nat.mod_lt _ (by omega)
    have hs : jsonEscapeChar c = '\\' :: 'u' :: hex4 c.toNat := by
      simp [jsonEscapeChar, h1, h2, h3, h4, h5, h6, h7, h8]
    rw [hs]
    have := parseJStr_u (hexDigit (c.toNat / 4096 % 16)) (hexDigit (c.toNat / 256 % 16))
      (hexDigit (c.toNat / 16 % 16)) (hexDigit (c.toNat % 16))
      (c.toNat / 4096 % 16) (c.toNat / 256 % 16) (c.toNat / 16 % 16) (c.toNat % 16) rest
      (hexVal_hexDigit _ (Nat.mod_lt _ (by omega))) (hexVal_hexDigit _ (Nat.mod_lt _ (by omega)))
      (hexVal_hexDigit _ e3) (hexVal_hexDigit _ e4)
    rw [hex4]
    simp only [List.cons_append, List.nil_append] at this ⊢
    rw [this]
    have hv : c.toNat / 4096 % 16 * 4096 + c.toNat / 256 % 16 * 256 +
        c.toNat / 16 % 16 * 16 + c.toNat % 16 = c.toNat := by omega
    rw [hv, Char.ofNat_toNat]
  · have hs : jsonEscapeChar c = [c] := by
      simp [jsonEscapeChar, h1, h2, h3, h4, h5, h6, h7, h8]
    rw [hs]
    show parseJStr (c :: rest) = _
    rw [parseJStr.eq_def]; simp [h1, h2]

theorem parseJStr_escList (l : List Char) (rest : List Char) :
    parseJStr (escList l ++ ('"' :: rest)) = some (l, rest) := by
  induction l with
  | nil => simpa [escList] using parseJStr_quote rest
  | cons c cs ih =>
    have : escList (c :: cs) = jsonEscapeChar c ++ escList cs := by
      simp [escList]
    rw [this, List.append_assoc, parseJStr_escape, ih]

/-! ### JSON array round trip -/

theorem jsonDumpsElems_cons_head (y : String) (l : List String) :
    ∃ t, jsonDumpsElems (y :: l) = '"' :: t := by
  cases l with
  | nil => exact ⟨escList y.data ++ ['"'], rfl⟩
  | cons z zs => exact ⟨(escList y.data ++ ['"']) ++ (',' :: ' ' :: jsonDumpsElems (z :: zs)), rfl⟩

theorem parseItemsF_dumps (l : List String) (x : String) :
    ∀ (fuel : Nat) (rest : List Char), l.length < fuel →
      parseItemsF fuel (jsonDumpsElems (x :: l) ++ (']' :: rest)) = some (x :: l, rest) := by
  induction l generalizing x with
  | nil =>
    intro fuel rest h
    cases fuel with
    | zero => omega
    | succ f =>
      have harr : jsonDumpsElems [x] ++ (']' :: rest) =
          '"' :: (escList x.data ++ ('"' :: (']' :: rest))) := by
        simp [jsonDumpsElems, jsonDumpStringData]
      rw [harr, parseItemsF.eq_def]
      simp only [parseJStr_escList]
      rw [skipWs_cons_of_not_ws ']' rest (by decide)]
      rfl
  | cons y l' ih =>
    intro fuel rest h
    cases fuel with
    | zero => omega
    | succ f =>
      have harr : jsonDumpsElems (x :: y :: l') ++ (']' :: rest) =
          '"' :: (escList x.data ++
            ('"' :: (',' :: ' ' :: (jsonDumpsElems (y :: l') ++ (']' :: rest))))) := by
        simp [jsonDumpsElems, jsonDumpStringData]
      rw [harr, parseItemsF.eq_def]
      simp only [parseJStr_escList]
      rw [skipWs_cons_of_not_ws ',' _ (by decide)]
      simp only []
      have hskip : skipWs (' ' :: (jsonDumpsElems (y :: l') ++ (']' :: rest))) =
          jsonDumpsElems (y :: l') ++ (']' :: rest) := by
        obtain ⟨t, ht⟩ := jsonDumpsElems_cons_head y l'
        rw [show skipWs (' ' :: (jsonDumpsElems (y :: l') ++ (']' :: rest))) =
            skipWs (jsonDumpsElems (y :: l') ++ (']' :: rest)) from by rw [skipWs.eq_def]; simp]
        rw [ht]
        exact skipWs_cons_of_not_ws '"' _ (by decide)
      rw [hskip, ih y f rest (by simpa using Nat.lt_of_succ_lt_succ h)]

theorem length_le_jsonDumpsElems (l : List String) : l.length ≤ (jsonDumpsElems l).length := by
  induction l with
  | nil => simp [jsonDumpsElems]
  | cons x xs ih =>
    cases xs with
    | nil => simp [jsonDumpsElems, jsonDumpStringData]
    | cons y ys =>
      have he : jsonDumpsElems (x :: y :: ys) =
          jsonDumpStringData x ++ (',' :: ' ' :: jsonDumpsElems (y :: ys)) := rfl
      rw [he]
      simp only [jsonDumpStringData, List.length_append, List.length_cons] at *
      omega

theorem jsonLoadsTop_bracket (fuel : Nat) (cs : List Char) :
    jsonLoadsTop fuel ('[' :: cs) = jsonLoadsTail fuel (skipWs cs) := by
  rw [jsonLoadsTop.eq_def]
  rfl

theorem jsonLoadsTail_quote (fuel : Nat) (t : List Char) :
    jsonLoadsTail fuel ('"' :: t) =
      match parseItemsF fuel ('"' :: t) with
      | some (items, rest) => if (skipWs rest).isEmpty then some items else none
      | none => none := by
  rw [jsonLoadsTail.eq_def]
  rfl

theorem jsonLoads_jsonDumps (l : List String) : jsonLoads (jsonDumps l ++ "\n") = some l := by
  cases l with
  | nil => decide
  | cons x xs =>
    have hdata : (jsonDumps (x :: xs) ++ "\n").data =
        '[' :: (jsonDumpsElems (x :: xs) ++ (']' :: ['\n'])) := by
      simp [jsonDumps, String.data_append]
    rw [jsonLoads, hdata]
    rw [skipWs_cons_of_not_ws '[' _ (by decide)]
    rw [jsonLoadsTop_bracket]
    obtain ⟨t, ht⟩ := jsonDumpsElems_cons_head x xs
    have hskip : skipWs (jsonDumpsElems (x :: xs) ++ (']' :: ['\n'])) =
        jsonDumpsElems (x :: xs) ++ (']' :: ['\n']) := by
      rw [ht, List.cons_append]
      exact skipWs_cons_of_not_ws '"' _ (by decide)
    rw [hskip]
    rw [ht, List.cons_append, jsonLoadsTail_quote, ← List.cons_append, ← ht]
    have hfuel : xs.length <
        ('[' :: (jsonDumpsElems (x :: xs) ++ (']' :: ['\n']))).length + 1 := by
      have := length_le_jsonDumpsElems (x :: xs)
      simp only [List.length_cons, List.length_append] at *
      omega
    rw [parseItemsF_dumps xs x _ ['\n'] hfuel]
    simp [show skipWs ['\n'] = [] from by decide]

/-! ### `rows.txt` contains no raw newline outside the terminators -/

theorem newline_not_mem_jsonEscapeChar (c : Char) : '\n' ∉ jsonEscapeChar c := by
  by_cases h1 : c = '"'
  · subst h1; decide
  by_cases h2 : c = '\\'
  · subst h2; decide
  by_cases h3 : c = '\x08'
  · subst h3; decide
  by_cases h4 : c = '\x0c'
  · subst h4; decide
  by_cases h5 : c = '\n'
  · subst h5; decide
  by_cases h6 : c = '\r'
  · subst h6; decide
  by_cases h7 : c = '\t'
  · subst h7; decide
  by_cases h8 : c.toNat < 0x20
  · have hs : jsonEscapeChar c = '\\' :: 'u' :: hex4 c.toNat := by
      simp [jsonEscapeChar, h1, h2, h3, h4, h5, h6, h7, h8]
    rw [hs]
    intro hmem
    simp [hex4, List.mem_cons] at hmem
    rcases hmem with h | h | h | h <;>
      exact hexDigit_ne_newline _ (Nat.mod_lt _ (by omega)) h.symm
  · have hs : jsonEscapeChar c = [c] := by
      simp [jsonEscapeChar, h1, h2, h3, h4, h5, h6, h7, h8]
    rw [hs]
    intro hmem
    simp [List.mem_singleton] at hmem
    rw [← hmem] at h8
    exact h8 (by decide)

theorem newline_not_mem_escList (l : List Char) : '\n' ∉ escList l := by
  induction l with
  | nil => simp [escList]
  | cons c cs ih =>
    intro hmem
    rw [show escList (c :: cs) = jsonEscapeChar c ++ escList cs from by simp [escList]] at hmem
    rcases List.mem_append.mp hmem with h | h
    · exact newline_not_mem_jsonEscapeChar c h
    · exact ih h

theorem newline_not_mem_jsonDumpsElems (l : List String) : '\n' ∉ jsonDumpsElems l := by
  induction l with
  | nil => simp [jsonDumpsElems]
  | cons x xs ih =>
    cases xs with
    | nil =>
      intro hmem
      simp only [jsonDumpsElems, jsonDumpStringData, List.mem_cons, List.mem_append,
        List.mem_singleton] at hmem
      rcases hmem with h | h | h
      · exact absurd h (by decide)
      · exact newline_not_mem_escList x.data h
      · exact absurd h (by decide)
    | cons y ys =>
      intro hmem
      rw [show jsonDumpsElems (x :: y :: ys) =
          jsonDumpStringData x ++ (',' :: ' ' :: jsonDumpsElems (y :: ys)) from rfl] at hmem
      rcases List.mem_append.mp hmem with h | h
      · simp only [jsonDumpStringData, List.mem_cons, List.mem_append,
          List.mem_singleton] at h
        rcases h with h | h | h
        · exact absurd h (by decide)
        · exact newline_not_mem_escList x.data h
        · exact absurd h (by decide)
      · rcases List.mem_cons.mp h with h | h
        · exact absurd h (by decide)
        · rcases List.mem_cons.mp h with h | h
          · exact absurd h (by decide)
          · exact ih h

theorem newline_not_mem_jsonDumps (l : List String) : '\n' ∉ (jsonDumps l).data := by
  intro hmem
  simp only [jsonDumps] at hmem
  rcases List.mem_cons.mp hmem with h | h
  · exact absurd h (by decide)
  · rcases List.mem_append.mp h with h | h
    · exact newline_not_mem_jsonDumpsElems l h
    · simp only [List.mem_singleton] at h
      exact absurd h (by decide)

/-! ### Line splitting -/

theorem splitLinesData_chunk (l rest : List Char) (h : '\n' ∉ l) :
    splitLinesData (l ++ '\n' :: rest) = (l ++ ['\n']) :: splitLinesData rest := by
  induction l with
  | nil => rw [List.nil_append, splitLinesData.eq_def]; simp
  | cons c cs ih =>
    have hc : ¬c = '\n' := fun e => h (by rw [e]; exact List.mem_cons_self _ _)
    have hcs : '\n' ∉ cs := fun e => h (List.mem_cons_of_mem _ e)
    rw [List.cons_append, splitLinesData.eq_def]
    simp only [hc, if_false]
    rw [ih hcs]
    simp

theorem fileLines_cons_line (s t : String) (h : '\n' ∉ s.data) :
    fileLines ((s ++ "\n") ++ t) = (s ++ "\n") :: fileLines t := by
  have hdata : ((s ++ "\n") ++ t).data = s.data ++ ('\n' :: t.data) := by
    simp [String.data_append]
  rw [fileLines, hdata, splitLinesData_chunk s.data t.data h]
  rw [List.map_cons]
  have : String.mk (s.data ++ ['\n']) = s ++ "\n" := by
    cases s
    rfl
  rw [this]
  rfl

theorem fileLines_empty : fileLines "" = [] := rfl

/-! ### Structure of the dump output -/

theorem fileLines_dumpRows (columns : List Column) (r : Row) (rs : List Row) (i : Nat) :
    fileLines ((dumpRows columns i (r :: rs)).1) =
      (jsonDumps ((encodeRow r i columns).1) ++ "\n") ::
        fileLines ((dumpRows columns (i + 1) rs).1) := by
  show fileLines ((jsonDumps ((encodeRow r i columns).1) ++ "\n") ++
    (dumpRows columns (i + 1) rs).1) = _
  exact fileLines_cons_line _ _ (newline_not_mem_jsonDumps _)

theorem fileLines_dumpRows_length (columns : List Column) :
    ∀ (rs : List Row) (i : Nat),
      (fileLines ((dumpRows columns i rs).1)).length = rs.length := by
  intro rs
  induction rs with
  | nil => intro i; rfl
  | cons r rs ih => intro i; rw [fileLines_dumpRows]; simp [ih]

theorem fileLines_dumpRows_get? (columns : List Column) :
    ∀ (rs : List Row) (i k : Nat) (r : Row), rs.get? k = some r →
      (fileLines ((dumpRows columns i rs).1)).get? k =
        some (jsonDumps ((encodeRow r (i + k) columns).1) ++ "\n") := by
  intro rs
  induction rs with
  | nil => intro i k r h; simp at h
  | cons r0 rs ih =>
    intro i k r h
    rw [fileLines_dumpRows]
    cases k with
    | zero =>
      simp only [List.get?] at h
      injection h with h
      subst h
      simp
    | succ k' =>
      have hk : (i + 1) + k' = i + (k' + 1) := by omega
      rw [show ((jsonDumps ((encodeRow r0 i columns).1) ++ "\n") ::
          fileLines ((dumpRows columns (i + 1) rs).1)).get? (k' + 1) =
          (fileLines ((dumpRows columns (i + 1) rs).1)).get? k' from rfl]
      rw [ih (i + 1) k' r (by simpa using h), hk]

theorem encodeRow_fst_length (r : Row) (i : Nat) :
    ∀ (cols : List Column), ((encodeRow r i cols).1).length = cols.length := by
  intro cols
  induction cols with
  | nil => rfl
  | cons c cs ih =>
    by_cases h : c.Type' ∈ LONG_COLUMN <;>
      simp [encodeRow, h, ih]

theorem encodeRow_fst_get?_long (r : Row) (i : Nat) :
    ∀ (cols : List Column) (k : Nat) (c : Column), cols.get? k = some c →
      c.Type' ∈ LONG_COLUMN → ((encodeRow r i cols).1).get? k = some "_" := by
  intro cols
  induction cols with
  | nil => intro k c h _; simp at h
  | cons c0 cs ih =>
    intro k c h hl
    cases k with
    | zero =>
      simp only [List.get?] at h
      injection h with h
      subst h
      simp [encodeRow, hl]
    | succ k' =>
      have := ih k' c (by simpa using h) hl
      by_cases h0 : c0.Type' ∈ LONG_COLUMN
      · simp [encodeRow, h0]
        simpa using this
      · simp [encodeRow, h0]
        simpa using this

theorem lookup_encodeRow_snd_ne (r : Row) (i n : Nat) (d : String) (h : n ≠ i) :
    ∀ (cols : List Column), List.lookup (d, n) (encodeRow r i cols).2 = none := by
  intro cols
  induction cols with
  | nil => rfl
  | cons c cs ih =>
    by_cases hc : c.Type' ∈ LONG_COLUMN
    · have hne : ((d, n) == (("column_" ++ c.Field : String), i)) = false := by
        apply beq_eq_false_iff_ne.mpr
        intro e
        injection e with e1 e2
        exact h e2
      simp [encodeRow, hc, List.lookup, hne, ih]
    · simp [encodeRow, hc, ih]

theorem lookup_encodeRow_eq (r : Row) (i : Nat) :
    ∀ (cols : List Column) (c : Column), c ∈ cols → c.Type' ∈ LONG_COLUMN →
      ((cols.filter (fun c => c.Type' ∈ LONG_COLUMN)).map (fun c => "column_" ++ c.Field)).Nodup →
      List.lookup (("column_" ++ c.Field : String), i) (encodeRow r i cols).2 =
        some (pyStr (rowGet r c.Field)) := by
  intro cols
  induction cols with
  | nil => intro c hmem; simp at hmem
  | cons c0 cs ih =>
    intro c hmem hl hnodup
    rcases List.mem_cons.mp hmem with rfl | hmem'
    · simp [encodeRow, hl, List.lookup]
    · by_cases h0 : c0.Type' ∈ LONG_COLUMN
      · have hfil : (c0 :: cs).filter (fun c => c.Type' ∈ LONG_COLUMN) =
            c0 :: cs.filter (fun c => c.Type' ∈ LONG_COLUMN) := by
          simp [List.filter_cons, h0]
        rw [hfil] at hnodup
        simp only [List.map_cons, List.nodup_cons] at hnodup
        have hdmem : ("column_" ++ c.Field : String) ∈
            (cs.filter (fun c => c.Type' ∈ LONG_COLUMN)).map (fun c => "column_" ++ c.Field) := by
          exact List.mem_map.mpr ⟨c, List.mem_filter.mpr ⟨hmem', by simpa using hl⟩, rfl⟩
        have hne : (("column_" ++ c.Field : String), i) ≠
            (("column_" ++ c0.Field : String), i) := by
          intro e
          injection e with e1 _
          exact hnodup.1 (e1 ▸ hdmem)
        have hne' : ((("column_" ++ c.Field : String), i) ==
            (("column_" ++ c0.Field : String), i)) = false :=
          beq_eq_false_iff_ne.mpr hne
        simp only [encodeRow, h0, if_pos]
        simp only [List.lookup, hne']
        exact ih c hmem' hl hnodup.2
      · have hfil : (c0 :: cs).filter (fun c => c.Type' ∈ LONG_COLUMN) =
            cs.filter (fun c => c.Type' ∈ LONG_COLUMN) := by
          simp [List.filter_cons, h0]
        rw [hfil] at hnodup
        simp only [encodeRow, h0, if_neg, ite_false]
        exact ih c hmem' hl hnodup

theorem dumpRows_snd_lookup (columns : List Column)
    (hnodup : ((columns.filter (fun c => c.Type' ∈ LONG_COLUMN)).map
      (fun c => "column_" ++ c.Field)).Nodup) :
    ∀ (rs : List Row) (i k : Nat) (r : Row) (c : Column),
      rs.get? k = some r → c ∈ columns → c.Type' ∈ LONG_COLUMN →
      List.lookup (("column_" ++ c.Field : String), i + k) (dumpRows columns i rs).2 =
        some (pyStr (rowGet r c.Field)) := by
  intro rs
  induction rs with
  | nil => intro i k r c h; simp at h
  | cons r0 rs ih =>
    intro i k r c h hmem hl
    show List.lookup _ ((encodeRow r0 i columns).2 ++ (dumpRows columns (i + 1) rs).2) = _
    rw [lookup_append]
    cases k with
    | zero =>
      simp only [List.get?] at h
      injection h with h
      subst h
      rw [show i + 0 = i from rfl, lookup_encodeRow_eq r0 i columns c hmem hl hnodup]
    | succ k' =>
      rw [lookup_encodeRow_snd_ne r0 i (i + (k' + 1)) _ (by omega) columns]
      have hk : (i + 1) + k' = i + (k' + 1) := by omega
      rw [← hk, ih (i + 1) k' r c (by simpa using h) hmem hl]

/-! ### Long-column position flags -/

theorem lookup_bigDataFlagsFrom_lt :
    ∀ (cols : List Column) (i n : Nat), n < i →
      List.lookup n (bigDataFlagsFrom i cols) = none := by
  intro cols
  induction cols with
  | nil => intro i n _; rfl
  | cons c cs ih =>
    intro i n h
    by_cases hc : c.Type' ∈ LONG_COLUMN
    · have hne : (n == i) = false := beq_eq_false_iff_ne.mpr (by omega)
      simp [bigDataFlagsFrom, hc, List.lookup, hne, ih (i + 1) n (by omega)]
    · simp [bigDataFlagsFrom, hc, ih (i + 1) n (by omega)]

theorem lookup_bigDataFlagsFrom_cons (c : Column) (cols : List Column) (i : Nat) :
    List.lookup i (bigDataFlagsFrom i (c :: cols)) =
      if c.Type' ∈ LONG_COLUMN then some ("column_" ++ c.Field) else none := by
  by_cases h : c.Type' ∈ LONG_COLUMN
  · simp [bigDataFlagsFrom, h, List.lookup]
  · simp [bigDataFlagsFrom, h, lookup_bigDataFlagsFrom_lt cols (i + 1) i (by omega)]

theorem lookup_bigDataFlagsFrom_shift (c : Column) (cols : List Column) (i n : Nat) (h : i < n) :
    List.lookup n (bigDataFlagsFrom i (c :: cols)) =
      List.lookup n (bigDataFlagsFrom (i + 1) cols) := by
  by_cases hc : c.Type' ∈ LONG_COLUMN
  · have hne : (n == i) = false := beq_eq_false_iff_ne.mpr (by omega)
    simp [bigDataFlagsFrom, hc, List.lookup, hne]
  · simp [bigDataFlagsFrom, hc]

theorem lookup_bigDataFlagsFrom_append :
    ∀ (pre suffix : List Column) (i n : Nat), i + pre.length ≤ n →
      List.lookup n (bigDataFlagsFrom i (pre ++ suffix)) =
        List.lookup n (bigDataFlagsFrom (i + pre.length) suffix) := by
  intro pre
  induction pre with
  | nil => intro suffix i n _; simp
  | cons c pre ih =>
    intro suffix i n h
    simp only [List.length_cons] at h
    rw [List.cons_append, lookup_bigDataFlagsFrom_shift c _ i n (by omega)]
    rw [ih suffix (i + 1) n (by omega)]
    have hlen : (i + 1) + pre.length = i + (c :: pre).length := by simp; omega
    rw [hlen]

/-! ### Decoding a dumped row line recovers the cell strings -/

theorem decode_from_encodeRow (td : TableDir) (tdir : List String) (row : Row) (j n : Nat)
    (columns : List Column) :
    ∀ (suffix pre : List Column), columns = pre ++ suffix →
      (∀ c ∈ suffix, c.Type' ∈ LONG_COLUMN →
        sidecar_read td ("column_" ++ c.Field) n = some (pyStr (rowGet row c.Field))) →
      ∃ reads, decode_from td tdir (bigDataFlags columns) n pre.length
          ((encodeRow row j suffix).1) =
        .ok (suffix.map (fun c => pyStr (rowGet row c.Field)), reads) := by
  intro suffix
  induction suffix with
  | nil =>
    intro pre _ _
    exact ⟨[], rfl⟩
  | cons c suffix ih =>
    intro pre hcols hside
    have hflag : List.lookup pre.length (bigDataFlags columns) =
        if c.Type' ∈ LONG_COLUMN then some ("column_" ++ c.Field) else none := by
      rw [bigDataFlags, hcols,
        lookup_bigDataFlagsFrom_append pre (c :: suffix) 0 pre.length (by omega)]
      rw [show 0 + pre.length = pre.length from by omega]
      exact lookup_bigDataFlagsFrom_cons c suffix pre.length
    obtain ⟨reads, hrec⟩ := ih (pre ++ [c]) (by rw [hcols, List.append_assoc]; rfl)
      (fun c' hm hl => hside c' (List.mem_cons_of_mem _ hm) hl)
    have hlen : (pre ++ [c]).length = pre.length + 1 := by simp
    rw [hlen] at hrec
    by_cases hc : c.Type' ∈ LONG_COLUMN
    · have henc : (encodeRow row j (c :: suffix)).1 = "_" :: (encodeRow row j suffix).1 := by
        simp [encodeRow, hc]
      have hflag' : List.lookup pre.length (bigDataFlags columns) =
          some ("column_" ++ c.Field) := by rw [hflag]; simp [hc]
      refine ⟨.readFile (tdir ++ ["column_" ++ c.Field, toString n ++ ".txt"]) :: reads, ?_⟩
      rw [henc]
      simp only [decode_from, hflag', hside c (List.mem_cons_self _ _) hc, hrec, List.map_cons]
    · have henc : (encodeRow row j (c :: suffix)).1 =
          pyStr (rowGet row c.Field) :: (encodeRow row j suffix).1 := by
        simp [encodeRow, hc]
      have hflag' : List.lookup pre.length (bigDataFlags columns) = none := by
        rw [hflag]; simp [hc]
      refine ⟨reads, ?_⟩
      rw [henc]
      simp only [decode_from, hflag', hrec, List.map_cons]

theorem decode_from_encodeRow_full (td : TableDir) (tdir : List String) (row : Row)
    (j n : Nat) (columns : List Column)
    (hside : ∀ c ∈ columns, c.Type' ∈ LONG_COLUMN →
      sidecar_read td ("column_" ++ c.Field) n = some (pyStr (rowGet row c.Field))) :
    ∃ reads, decode_from td tdir (bigDataFlags columns) n 0 ((encodeRow row j columns).1) =
      .ok (columns.map (fun c => pyStr (rowGet row c.Field)), reads) := by
  have := decode_from_encodeRow td tdir row j n columns columns [] rfl hside
  simpa using this

/-! ### Database-state lemmas -/

theorem lookupTable_applyCreate (db : DB) (t : String) :
    lookupTable (applyCreate db t) t = some [] := by
  simp [lookupTable, applyCreate, List.lookup]

theorem lookup_dbInsert_list (t : String) (ps : List String) :
    ∀ (l : List (String × List (List Value))) (a : List (List Value)),
      List.lookup t l = some a →
      List.lookup t (l.map (fun p =>
        if p.1 = t then (p.1, p.2 ++ [ps.map (fun s => (some s : Value))]) else p)) =
        some (a ++ [ps.map (fun s => (some s : Value))]) := by
  intro l
  induction l with
  | nil => intro a h; simp [List.lookup] at h
  | cons p rest ih =>
    intro a h
    cases p with
    | mk n rows =>
      by_cases hnt : n = t
      · subst hnt
        simp only [List.lookup, beq_self_eq_true] at h
        injection h with h
        subst h
        simp only [List.map_cons]
        simp [List.lookup]
      · have hbe : (t == n) = false := beq_eq_false_iff_ne.mpr (fun e => hnt e.symm)
        simp only [List.lookup, hbe] at h
        simp only [List.map_cons]
        rw [if_neg (show ¬((n, rows) : String × List (List Value)).1 = t from hnt)]
        simp only [List.lookup, hbe]
        exact ih a h

theorem lookupTable_dbInsert (db : DB) (t : String) (ps : List String) (a : List (List Value))
    (h : lookupTable db t = some a) :
    lookupTable (dbInsert db t ps) t = some (a ++ [ps.map (fun s => (some s : Value))]) :=
  lookup_dbInsert_list t ps db.tables a h

theorem lookupTable_foldl_insert (t : String) (f : Row → List String) :
    ∀ (rs : List Row) (db : DB) (a : List (List Value)), lookupTable db t = some a →
      lookupTable (rs.foldl (fun d r => dbInsert d t (f r)) db) t =
        some (a ++ rs.map (fun r => (f r).map (fun s => (some s : Value)))) := by
  intro rs
  induction rs with
  | nil => intro db a h; simpa using h
  | cons r rs ih =>
    intro db a h
    rw [List.foldl_cons,
      ih (dbInsert db t (f r)) (a ++ [(f r).map (fun s => (some s : Value))])
        (lookupTable_dbInsert db t (f r) a h)]
    simp

/-! ### The drop step -/

theorem containsSub_unknown_head (x : List Char) :
    containsSub "Unknown table ".data ("Unknown table ".data ++ x) = true := by
  rw [show ("Unknown table ".data : List Char) = 'U' :: "nknown table ".data from rfl]
  exact containsSub_of_head _ _ _

theorem unknown_table_contains (t : String) :
    strContains ("(1051, \"Unknown table '" ++ t ++ "'\")") "Unknown table " = true := by
  rw [strContains]
  have hd : ("(1051, \"Unknown table '" ++ t ++ "'\")" : String).data =
      "(1051, \"".data ++ ("Unknown table ".data ++ ('\'' :: (t.data ++ "'\")".data))) := by
    simp only [String.data_append, List.cons_append, List.nil_append, List.append_assoc]
  rw [hd]
  exact containsSub_append_left _ _ _ (containsSub_unknown_head _)

theorem drop_table_if_exists_absent (db : DB) (t : String) (h : lookupTable db t = none) :
    drop_table_if_exists db t = .ok db := by
  simp [drop_table_if_exists, applyDrop, h, drop_error_suppressed, unknown_table_contains t]

theorem drop_table_if_exists_present (db : DB) (t : String) (v : List (List Value))
    (h : lookupTable db t = some v) :
    drop_table_if_exists db t = .ok ⟨db.tables.filter (fun p => p.1 ≠ t)⟩ := by
  simp [drop_table_if_exists, applyDrop, h]

theorem drop_table_if_exists_total (db : DB) (t : String) :
    ∃ db1, drop_table_if_exists db t = .ok db1 := by
  cases h : lookupTable db t with
  | some v => exact ⟨_, drop_table_if_exists_present db t v h⟩
  | none => exact ⟨db, drop_table_if_exists_absent db t h⟩

/-! ### Replay of the dumped rows -/

theorem recover_rows_dump (td : TableDir) (tdir : List String) (columns : List Column)
    (stmt t : String) :
    ∀ (rs : List Row) (i : Nat) (db : DB),
      (∀ (k : Nat) (r : Row) (c : Column), rs.get? k = some r → c ∈ columns →
        c.Type' ∈ LONG_COLUMN →
        sidecar_read td ("column_" ++ c.Field) (i + k) = some (pyStr (rowGet r c.Field))) →
      ∃ fsOps,
        recover_rows td tdir (bigDataFlags columns) stmt t db i
            (fileLines ((dumpRows columns i rs).1)) =
          (rs.map (fun r =>
             DBOp.exec stmt (some (columns.map fun c => pyStr (rowGet r c.Field)))),
           fsOps,
           .ok (rs.foldl (fun d r =>
             dbInsert d t (columns.map fun c => pyStr (rowGet r c.Field))) db)) := by
  intro rs
  induction rs with
  | nil => intro i db _; exact ⟨[], rfl⟩
  | cons r rs ih =>
    intro i db hside
    rw [fileLines_dumpRows]
    obtain ⟨reads, hdec⟩ := decode_from_encodeRow_full td tdir r i i columns
      (fun c hm hl => by simpa using hside 0 r c rfl hm hl)
    obtain ⟨fsTail, htail⟩ := ih (i + 1)
      (dbInsert db t (columns.map fun c => pyStr (rowGet r c.Field)))
      (fun k r' c hk hm hl => by
        have := hside (k + 1) r' c (by simpa using hk) hm hl
        rwa [show i + (k + 1) = (i + 1) + k from by omega] at this)
    refine ⟨reads ++ fsTail, ?_⟩
    simp only [recover_rows, jsonLoads_jsonDumps, hdec, htail, List.map_cons, List.foldl_cons]

/-- The heart of the round trip: recovering a freshly dumped table directory
succeeds and leaves the table holding the string form of every original
cell. -/
theorem recover_table_dump (cs : String) (columns : List Column) (rows : List Row)
    (t : String) (db : DB)
    (hnodup : ((dump_table cs columns rows).sidecar_dirs).Nodup) :
    ∃ ops fsOps db',
      recover_table db (.dirEntry (dump_table cs columns rows)) t = (ops, fsOps, .ok db') ∧
      lookupTable db' t =
        some (rows.map (fun r =>
          columns.map (fun c => (some (pyStr (rowGet r c.Field)) : Value)))) := by
  obtain ⟨db1, hdrop⟩ := drop_table_if_exists_total db t
  have hnodup' : ((columns.filter (fun c => c.Type' ∈ LONG_COLUMN)).map
      (fun c => "column_" ++ c.Field)).Nodup := hnodup
  obtain ⟨fsOps, hrows⟩ := recover_rows_dump (dump_table cs columns rows) ["data", t]
    columns (insert_stmt t columns) t rows 0 (applyCreate db1 t)
    (fun k r c hk hm hl => by
      show List.lookup (("column_" ++ c.Field : String), 0 + k)
        (dump_table cs columns rows).sidecar_files = _
      have := dumpRows_snd_lookup columns hnodup' rows 0 k r c hk hm hl
      exact this)
  have heq : recover_table db (.dirEntry (dump_table cs columns rows)) t =
      (DBOp.exec ("DROP TABLE " ++ t) none :: DBOp.exec cs none ::
        rows.map (fun r => DBOp.exec (insert_stmt t columns)
          (some (columns.map fun c => pyStr (rowGet r c.Field)))),
       FSOp.readFile ["data", t, "create_table.sql"] ::
         FSOp.readFile ["data", t, "desc_table.yaml"] ::
         FSOp.readFile ["data", t, "rows.txt"] :: fsOps,
       .ok (rows.foldl (fun d r => dbInsert d t (columns.map fun c => pyStr (rowGet r c.Field)))
         (applyCreate db1 t))) := by
    simp only [recover_table, hdrop]
    rw [show (dump_table cs columns rows).rows_txt = (dumpRows columns 0 rows).1 from rfl,
      show (dump_table cs columns rows).desc_table_yaml = columns from rfl,
      show (dump_table cs columns rows).create_table_sql = cs from rfl]
    rw [hrows]
    simp
  refine ⟨_, _, _, heq, ?_⟩
  have := lookupTable_foldl_insert t (fun r => columns.map fun c => pyStr (rowGet r c.Field))
    rows (applyCreate db1 t) [] (lookupTable_applyCreate db1 t)
  rw [this]
  simp [List.map_map, Function.comp]

/-! ### Shape of the execute-call trace -/

theorem recover_rows_ops (td : TableDir) (tdir : List String) (flags : List (Nat × String))
    (stmt t : String) :
    ∀ (lines : List String) (db : DB) (n : Nat),
      (recover_rows td tdir flags stmt t db n lines).1.length ≤ lines.length ∧
      ((∃ db', (recover_rows td tdir flags stmt t db n lines).2.2 = .ok db') →
        (recover_rows td tdir flags stmt t db n lines).1.length = lines.length) ∧
      ∀ op ∈ (recover_rows td tdir flags stmt t db n lines).1, ∃ ps, op = .exec stmt (some ps) := by
  intro lines
  induction lines with
  | nil =>
    intro db n
    exact ⟨Nat.le.refl, fun _ => rfl, fun op hop => absurd hop (List.not_mem_nil op)⟩
  | cons line rest ih =>
    intro db n
    cases hj : jsonLoads line with
    | none =>
      refine ⟨?_, ?_, ?_⟩ <;> simp [recover_rows, hj]
    | some data =>
      cases hd : decode_from td tdir flags n 0 data with
      | error e =>
        refine ⟨?_, ?_, ?_⟩ <;> simp [recover_rows, hj, hd]
      | ok pr =>
        obtain ⟨params, reads⟩ := pr
        obtain ⟨ihlen, ihok, ihmem⟩ := ih (dbInsert db t params) (n + 1)
        refine ⟨?_, ?_, ?_⟩
        · simp only [recover_rows, hj, hd, List.length_cons]
          omega
        · intro hok
          simp only [recover_rows, hj, hd] at hok ⊢
          simp only [List.length_cons]
          rw [ihok hok]
        · intro op hop
          simp only [recover_rows, hj, hd, List.mem_cons] at hop
          rcases hop with rfl | hop
          · exact ⟨params, rfl⟩
          · exact ihmem op hop

/-! ### Every filesystem access of the recover path is a read -/

theorem decode_from_reads (td : TableDir) (tdir : List String) (flags : List (Nat × String))
    (n : Nat) :
    ∀ (data : List String) (i : Nat) (ps : List String) (reads : List FSOp),
      decode_from td tdir flags n i data = .ok (ps, reads) →
      ∀ op ∈ reads, op.isRead = true := by
  intro data
  induction data with
  | nil =>
    intro i ps reads h
    simp only [decode_from] at h
    injection h with h
    injection h with _ h
    subst h
    simp
  | cons v vs ih =>
    intro i ps reads h
    cases hl : List.lookup i flags with
    | some d =>
      simp only [decode_from, hl] at h
      cases hs : sidecar_read td d n with
      | some content =>
        rw [hs] at h
        cases hr : decode_from td tdir flags n (i + 1) vs with
        | ok pr =>
          obtain ⟨ps', reads'⟩ := pr
          rw [hr] at h
          injection h with h
          injection h with _ h
          subst h
          intro op hop
          rcases List.mem_cons.mp hop with rfl | hop
          · rfl
          · exact ih (i + 1) ps' reads' hr op hop
        | error e => rw [hr] at h; exact absurd h (by simp)
      | none => rw [hs] at h; exact absurd h (by simp)
    | none =>
      simp only [decode_from, hl] at h
      cases hr : decode_from td tdir flags n (i + 1) vs with
      | ok pr =>
        obtain ⟨ps', reads'⟩ := pr
        rw [hr] at h
        injection h with h
        injection h with _ h
        subst h
        exact fun op hop => ih (i + 1) ps' reads' hr op hop
      | error e => rw [hr] at h; exact absurd h (by simp)

theorem recover_rows_reads (td : TableDir) (tdir : List String) (flags : List (Nat × String))
    (stmt t : String) :
    ∀ (lines : List String) (db : DB) (n : Nat),
      ∀ op ∈ (recover_rows td tdir flags stmt t db n lines).2.1, op.isRead = true := by
  intro lines
  induction lines with
  | nil => intro db n; simp [recover_rows]
  | cons line rest ih =>
    intro db n
    cases hj : jsonLoads line with
    | none => simp [recover_rows, hj]
    | some data =>
      cases hd : decode_from td tdir flags n 0 data with
      | error e => simp [recover_rows, hd, hj]
      | ok pr =>
        obtain ⟨params, reads⟩ := pr
        intro op hop
        simp only [recover_rows, hj, hd] at hop
        rcases List.mem_append.mp hop with hop | hop
        · exact decode_from_reads td tdir flags n data 0 params reads hd op hop
        · exact ih (dbInsert db t params) (n + 1) op hop

theorem recover_table_reads (db : DB) (entry : DatasetEntry) (t : String) :
    ∀ op ∈ (recover_table db entry t).2.1, op.isRead = true := by
  cases entry with
  | fileEntry content => simp [recover_table]
  | dirEntry td =>
    cases hdrop : drop_table_if_exists db t with
    | error e => simp [recover_table, hdrop]
    | ok db1 =>
      intro op hop
      simp only [recover_table, hdrop, List.mem_cons] at hop
      rcases hop with rfl | rfl | rfl | hop
      · rfl
      · rfl
      · rfl
      · exact recover_rows_reads td ["data", t] (bigDataFlags td.desc_table_yaml)
          (insert_stmt t td.desc_table_yaml) t (fileLines td.rows_txt)
          (applyCreate db1 t) 0 op hop

theorem recover_tables_reads :
    ∀ (entries : List (String × DatasetEntry)) (db : DB),
      ∀ op ∈ (recover_tables db entries).2.1, op.isRead = true := by
  intro entries
  induction entries with
  | nil => intro db; simp [recover_tables]
  | cons p rest ih =>
    intro db op hop
    obtain ⟨name, e⟩ := p
    cases hr : (recover_table db e name).2.2 with
    | ok dbx =>
      simp only [recover_tables, hr] at hop
      rcases List.mem_append.mp hop with hop | hop
      · exact recover_table_reads db e name op hop
      · exact ih dbx op hop
    | error err =>
      simp only [recover_tables, hr] at hop
      exact recover_table_reads db e name op hop

theorem recover_reads (db : DB) (root : PathState) :
    ∀ op ∈ (recover db root).2.1, op.isRead = true := by
  cases root with
  | absent => simp [recover]
  | fileAt content => simp [recover]
  | dirAt entries => exact recover_tables_reads entries db

theorem applyFSOps_of_reads :
    ∀ (ops : List FSOp), (∀ op ∈ ops, op.isRead = true) →
      ∀ (fs : List (List String × String)), applyFSOps fs ops = fs := by
  intro ops
  induction ops with
  | nil => intro _ fs; rfl
  | cons op rest ih =>
    intro h fs
    have hop : op.isRead = true := h op (List.mem_cons_self _ _)
    cases op with
    | readFile path =>
      show applyFSOps (applyFSOp fs (.readFile path)) rest = fs
      exact ih (fun o ho => h o (List.mem_cons_of_mem _ ho)) fs
    | writeFile path content => simp [FSOp.isRead] at hop

/-! ### Decoding ignores the row-line entries at long positions -/

theorem decode_from_flagged_only (td : TableDir) (tdir : List String)
    (flags : List (Nat × String)) (n : Nat) :
    ∀ (d1 d2 : List String) (s : Nat), d1.length = d2.length →
      (∀ k, k < d1.length → List.lookup (s + k) flags = none → d1.get? k = d2.get? k) →
      decode_from td tdir flags n s d1 = decode_from td tdir flags n s d2 := by
  intro d1
  induction d1 with
  | nil =>
    intro d2 s hlen _
    cases d2 with
    | nil => rfl
    | cons v r => simp at hlen
  | cons v1 r1 ih =>
    intro d2 s hlen hag
    cases d2 with
    | nil => simp at hlen
    | cons v2 r2 =>
      have hlen' : r1.length = r2.length := by simpa using hlen
      have hrest : decode_from td tdir flags n (s + 1) r1 =
          decode_from td tdir flags n (s + 1) r2 := by
        refine ih r2 (s + 1) hlen' (fun k hk h0 => ?_)
        have := hag (k + 1) (by simp; omega)
          (by rwa [show s + (k + 1) = (s + 1) + k from by omega])
        simpa using this
      cases hl : List.lookup s flags with
      | some d => simp only [decode_from, hl, hrest]
      | none =>
        have hv : v1 = v2 := by
          have := hag 0 (by simp) (by simpa using hl)
          simpa using this
        subst hv
        simp only [decode_from, hl, hrest]

/-! ### The orchestrator aborts at the first failing entry -/

theorem recover_tables_abort (name content : String) (post : List (String × DatasetEntry)) :
    ∀ (pre : List (String × DatasetEntry)) (db db1 : DB) (ops : List DBOp) (fs : List FSOp),
      recover_tables db pre = (ops, fs, .ok db1) →
      recover_tables db (pre ++ (name, .fileEntry content) :: post) =
        (ops, fs, .error (.recoverError
          ("\"" ++ String.intercalate "/" ["data", name] ++ "\" is not a directory"))) := by
  intro pre
  induction pre with
  | nil =>
    intro db db1 ops fs h
    injection h with h1 h23
    injection h23 with h2 h3
    subst h1
    subst h2
    simp [recover_tables, recover_table]
  | cons p pre ih =>
    intro db db1 ops fs h
    obtain ⟨nm, e⟩ := p
    cases hr : (recover_table db e nm).2.2 with
    | error err =>
      simp only [recover_tables, hr] at h
      injection h with _ h23
      injection h23 with _ h3
      exact absurd h3 (by simp)
    | ok dbx =>
      simp only [recover_tables, hr] at h
      rcases hR : recover_tables dbx pre with ⟨opsR, fsR, resR⟩
      rw [hR] at h
      injection h with h1 h23
      injection h23 with h2 h3
      have hresR : resR = .ok db1 := h3
      subst hresR
      have habort := ih dbx db1 opsR fsR hR
      show recover_tables db ((nm, e) :: (pre ++ (name, .fileEntry content) :: post)) = _
      simp only [recover_tables, hr, habort]
      rw [← h1, ← h2]

/-! ### Claim theorems -/

/-- C1 (counterexample): dumping and then recovering a table whose single
`text` cell is NULL yields the string `"None"` in place of NULL, so the
round trip does not reproduce the row content exactly as the claim states. -/
theorem c1_null_roundtrip_counterexample :
    (recover_table ⟨[]⟩
      (.dirEntry (dump_table "CREATE TABLE t2 (body text)" nullBioColumns nullBioRows))
      "t2").2.2 = .ok ⟨[("t2", [[some "None"]])]⟩ ∧
    rowGet [("body", (none : Value))] "body" = none ∧
    ([[(some "None" : Value)]] ≠ [[(none : Value)]]) :=
  ⟨by decide, rfl, by decide⟩

/-- C1 (amended): for every table whose sidecar directory names are distinct
and whose cells are all non-NULL, running `dump_table` and then
`recover_table` on the produced table directory reproduces the table's row
content and row count exactly, independent of the sentinel substitution;
a NULL cell instead comes back as the string `"None"`. -/
theorem c1_roundtrip (cs : String) (columns : List Column) (rows : List Row)
    (t : String) (db : DB)
    (hnodup : ((dump_table cs columns rows).sidecar_dirs).Nodup)
    (hvals : ∀ r ∈ rows, ∀ c ∈ columns, rowGet r c.Field ≠ none) :
    ∃ ops fsOps db',
      recover_table db (.dirEntry (dump_table cs columns rows)) t =
        (ops, fsOps, Except.ok db') ∧
      lookupTable db' t = some (rows.map (fun r => columns.map (fun c => rowGet r c.Field))) ∧
      (rows.map (fun r => columns.map (fun c => rowGet r c.Field))).length = rows.length := by
  obtain ⟨ops, fs, db', heq, hlook⟩ := recover_table_dump cs columns rows t db hnodup
  refine ⟨ops, fs, db', heq, ?_, by simp⟩
  rw [hlook]
  congr 1
  refine List.map_congr_left (fun r hr => ?_)
  refine List.map_congr_left (fun c hc => ?_)
  cases hv : rowGet r c.Field with
  | none => exact absurd hv (hvals r hr c hc)
  | some s => simp [pyStr, hv]

/-- Witness for C1: the `users` sample round-trips exactly. -/
theorem c1_roundtrip_witness :
    ∃ ops fsOps db',
      recover_table ⟨[]⟩
        (.dirEntry (dump_table "CREATE TABLE users (id int)" usersColumns usersRows))
        "users" = (ops, fsOps, Except.ok db') ∧
      lookupTable db' "users" =
        some (usersRows.map (fun r => usersColumns.map (fun c => rowGet r c.Field))) ∧
      (usersRows.map (fun r => usersColumns.map (fun c => rowGet r c.Field))).length =
        usersRows.length :=
  c1_roundtrip "CREATE TABLE users (id int)" usersColumns usersRows "users" ⟨[]⟩
    (by decide) (by decide)

/-- C2 (counterexample): for a NULL cell the sidecar file for row 0 holds
the text `"None"`, which is not that row's cell value (NULL): the sidecar
holds the string form of the cell, not the cell itself. -/
theorem c2_sidecar_null_counterexample :
    sidecar_read (dump_table "CREATE TABLE t2 (body text)" nullBioColumns nullBioRows)
      "column_body" 0 = some "None" ∧
    rowGet [("body", (none : Value))] "body" = none ∧
    ((some "None" : Value) ≠ (none : Value)) :=
  ⟨by decide, rfl, by decide⟩

/-- C2 (amended): the row index used for sidecar filenames equals the
0-based line number within `rows.txt` on both dump and recover, and the
sidecar file for row `i` holds the string form `str(value)` of that row's
cell for that column (equal to the cell whenever it is non-NULL). -/
theorem c2_sidecar_index (cs : String) (columns : List Column) (rows : List Row)
    (t : String) (i : Nat) (r : Row) (c : Column)
    (hnodup : ((dump_table cs columns rows).sidecar_dirs).Nodup)
    (hr : rows.get? i = some r) (hc : c ∈ columns) (hl : c.Type' ∈ LONG_COLUMN) :
    sidecar_read (dump_table cs columns rows) ("column_" ++ c.Field) i =
      some (pyStr (rowGet r c.Field)) ∧
    (fileLines ((dump_table cs columns rows).rows_txt)).get? i =
      some (jsonDumps ((encodeRow r i columns).1) ++ "\n") ∧
    ∃ reads, decode_from (dump_table cs columns rows) ["data", t] (bigDataFlags columns) i 0
        ((encodeRow r i columns).1) =
      .ok (columns.map (fun c' => pyStr (rowGet r c'.Field)), reads) := by
  refine ⟨?_, ?_, ?_⟩
  · show List.lookup (("column_" ++ c.Field : String), i) ((dumpRows columns 0 rows).2) = _
    have := dumpRows_snd_lookup columns hnodup rows 0 i r c hr hc hl
    simpa using this
  · show (fileLines ((dumpRows columns 0 rows).1)).get? i = _
    have := fileLines_dumpRows_get? columns rows 0 i r hr
    simpa using this
  · refine decode_from_encodeRow_full _ _ r i i columns (fun c' hm hl' => ?_)
    show List.lookup (("column_" ++ c'.Field : String), i) ((dumpRows columns 0 rows).2) = _
    have := dumpRows_snd_lookup columns hnodup rows 0 i r c' hr hm hl'
    simpa using this

/-- Witness for C2: row 1 of the `users` sample and its `bio` sidecar. -/
theorem c2_sidecar_index_witness :
    sidecar_read (dump_table "CREATE TABLE users (id int)" usersColumns usersRows)
      ("column_" ++ (⟨"bio", "text", "YES", "", none, ""⟩ : Column).Field) 1 =
      some (pyStr (rowGet usersRow1 (⟨"bio", "text", "YES", "", none, ""⟩ : Column).Field)) ∧
    (fileLines ((dump_table "CREATE TABLE users (id int)" usersColumns usersRows).rows_txt)).get? 1 =
      some (jsonDumps ((encodeRow usersRow1 1 usersColumns).1) ++ "\n") ∧
    ∃ reads, decode_from (dump_table "CREATE TABLE users (id int)" usersColumns usersRows)
        ["data", "users"] (bigDataFlags usersColumns) 1 0 ((encodeRow usersRow1 1 usersColumns).1) =
      .ok (usersColumns.map (fun c' => pyStr (rowGet usersRow1 c'.Field)), reads) :=
  c2_sidecar_index "CREATE TABLE users (id int)" usersColumns usersRows "users" 1 usersRow1
    ⟨"bio", "text", "YES", "", none, ""⟩ (by decide) (by decide) (by decide) (by decide)

/-- C3: a column is classified long iff its declared type string is exactly
one of `text`, `mediumtext`, `longtext`; a `varchar(65535)` column is stored
inline as `str(value)` while a `text` column gets the sentinel `"_"` in its
row-line slot and its value goes to the sidecar file, regardless of value
lengths. -/
theorem c3_classification (f1 f2 : String) (v1 v2 : Value) (i : Nat) (hne : f1 ≠ f2) :
    (∀ ty : String, ty ∈ LONG_COLUMN ↔ (ty = "text" ∨ ty = "mediumtext" ∨ ty = "longtext")) ∧
    encodeRow [(f1, v1), (f2, v2)] i
        [⟨f1, "varchar(65535)", "", "", none, ""⟩, ⟨f2, "text", "", "", none, ""⟩] =
      ([pyStr v1, "_"], [(("column_" ++ f2, i), pyStr v2)]) := by
  constructor
  · intro ty
    simp [LONG_COLUMN]
  · have h1 : ¬(("varchar(65535)" : String) ∈ LONG_COLUMN) := by decide
    have h2 : ("text" : String) ∈ LONG_COLUMN := by decide
    have hg1 : rowGet [(f1, v1), (f2, v2)] f1 = v1 := by
      simp [rowGet, List.lookup]
    have hg2 : rowGet [(f1, v1), (f2, v2)] f2 = v2 := by
      have hbe : (f2 == f1) = false := beq_eq_false_iff_ne.mpr (fun e => hne e.symm)
      simp [rowGet, List.lookup, hbe]
    simp [encodeRow, h1, h2, hg1, hg2]

/-- Witness for C3 at concrete field names and values. -/
theorem c3_classification_witness :
    (∀ ty : String, ty ∈ LONG_COLUMN ↔ (ty = "text" ∨ ty = "mediumtext" ∨ ty = "longtext")) ∧
    encodeRow [("name", some "x"), ("body", some "y")] 0
        [⟨"name", "varchar(65535)", "", "", none, ""⟩, ⟨"body", "text", "", "", none, ""⟩] =
      ([pyStr (some "x"), "_"], [(("column_" ++ "body", 0), pyStr (some "y"))]) :=
  c3_classification "name" "body" (some "x") (some "y") 0 (by decide)

/-- C4: during recover the drop step suppresses exactly those drop-time
engine errors that are internal errors whose message contains
`"Unknown table "`, re-raises every other error, and dropping an absent
table does not raise. -/
theorem c4_drop_idempotent (db : DB) (t : String) (e : PyErr)
    (herr : applyDrop db t = .error e) :
    drop_table_if_exists db t = (if drop_error_suppressed e then .ok db else .error e) ∧
    (drop_error_suppressed e = true ↔
      ∃ msg, e = .internalError msg ∧ strContains msg "Unknown table " = true) ∧
    (lookupTable db t = none → drop_table_if_exists db t = .ok db) := by
  refine ⟨?_, ?_, fun h => drop_table_if_exists_absent db t h⟩
  · simp [drop_table_if_exists, herr]
  · cases e <;> simp [drop_error_suppressed]

/-- Witness for C4: dropping `users` in an empty database raises the
unknown-table error and it is suppressed. -/
theorem c4_drop_idempotent_witness :
    drop_table_if_exists ⟨[]⟩ "users" =
      (if drop_error_suppressed (.internalError "(1051, \"Unknown table 'users'\")")
       then .ok ⟨[]⟩ else .error (.internalError "(1051, \"Unknown table 'users'\")")) ∧
    (drop_error_suppressed (.internalError "(1051, \"Unknown table 'users'\")") = true ↔
      ∃ msg, (PyErr.internalError "(1051, \"Unknown table 'users'\")") = .internalError msg ∧
        strContains msg "Unknown table " = true) ∧
    (lookupTable ⟨[]⟩ "users" = none → drop_table_if_exists ⟨[]⟩ "users" = .ok ⟨[]⟩) :=
  c4_drop_idempotent ⟨[]⟩ "users" (.internalError "(1051, \"Unknown table 'users'\")")
    (by decide)

/-- C5: dump removes whatever occupies the dataset root — file or directory
alike — then creates a fresh empty directory there before any table is
dumped; the result is independent of the pre-existing path state. -/
theorem c5_destructive_dump (st : PathState) (src : List SourceTable) :
    os_mkdir (prepare_data_dir st) = .ok (.dirAt []) ∧
    dump st src = .ok (.dirAt (src.map (fun s =>
      (s.name, .dirEntry (dump_table s.create_stmt s.columns s.rows))))) := by
  cases st <;> exact ⟨rfl, rfl⟩

/-- C6: `rows.txt` holds exactly one JSON array per line and one line per
row; every array has length equal to the column count in descriptor order
and holds the sentinel `"_"` at every long-column position. -/
theorem c6_rows_txt_shape (cs : String) (columns : List Column) (rows : List Row) :
    (fileLines ((dump_table cs columns rows).rows_txt)).length = rows.length ∧
    (∀ (i : Nat) (r : Row), rows.get? i = some r →
      (fileLines ((dump_table cs columns rows).rows_txt)).get? i =
        some (jsonDumps ((encodeRow r i columns).1) ++ "\n") ∧
      jsonLoads (jsonDumps ((encodeRow r i columns).1) ++ "\n") =
        some ((encodeRow r i columns).1)) ∧
    (∀ (r : Row) (i : Nat), ((encodeRow r i columns).1).length = columns.length) ∧
    (∀ (r : Row) (i k : Nat) (c : Column), columns.get? k = some c →
      c.Type' ∈ LONG_COLUMN → ((encodeRow r i columns).1).get? k = some "_") := by
  refine ⟨?_, ?_, ?_, ?_⟩
  · show (fileLines ((dumpRows columns 0 rows).1)).length = rows.length
    exact fileLines_dumpRows_length columns rows 0
  · intro i r hr
    constructor
    · show (fileLines ((dumpRows columns 0 rows).1)).get? i = _
      have := fileLines_dumpRows_get? columns rows 0 i r hr
      simpa using this
    · exact jsonLoads_jsonDumps _
  · exact fun r i => encodeRow_fst_length r i columns
  · exact fun r i k c h hl => encodeRow_fst_get?_long r i columns k c h hl

/-- Witness for C6: the `users` sample has two lines, and line 0 is the JSON
array of row 0. -/
theorem c6_rows_txt_shape_witness :
    (fileLines ((dump_table "c" usersColumns usersRows).rows_txt)).length = usersRows.length ∧
    (fileLines ((dump_table "c" usersColumns usersRows).rows_txt)).get? 0 =
      some (jsonDumps ((encodeRow usersRow0 0 usersColumns).1) ++ "\n") ∧
    ((encodeRow usersRow0 0 usersColumns).1).length = usersColumns.length := by
  have h := c6_rows_txt_shape "c" usersColumns usersRows
  exact ⟨h.1, (h.2.1 0 usersRow0 (by decide)).1, h.2.2.1 usersRow0 0⟩

/-- C7: `recover_table` builds a single INSERT template with one `%s` per
descriptor read from `desc_table.yaml` and executes that one template for
every row line of `rows.txt`. -/
theorem c7_insert_template (db : DB) (td : TableDir) (t : String)
    (ops : List DBOp) (fs : List FSOp) (db' : DB)
    (h : recover_table db (.dirEntry td) t = (ops, fs, .ok db')) :
    insert_stmt t td.desc_table_yaml =
      "INSERT INTO " ++ t ++ " VALUE (" ++
        String.intercalate ", " (placeholdersList td.desc_table_yaml) ++ ")" ∧
    (placeholdersList td.desc_table_yaml).length = td.desc_table_yaml.length ∧
    ∃ inserts,
      ops = DBOp.exec ("DROP TABLE " ++ t) none ::
        DBOp.exec td.create_table_sql none :: inserts ∧
      inserts.length = (fileLines td.rows_txt).length ∧
      ∀ op ∈ inserts, ∃ ps, op = DBOp.exec (insert_stmt t td.desc_table_yaml) (some ps) := by
  refine ⟨rfl, by simp [placeholdersList], ?_⟩
  cases hdrop : drop_table_if_exists db t with
  | error e =>
    simp only [recover_table, hdrop] at h
    injection h with _ h23
    injection h23 with _ h3
    exact absurd h3 (by simp)
  | ok db1 =>
    simp only [recover_table, hdrop] at h
    injection h with h1 h23
    injection h23 with h2 h3
    obtain ⟨hlen, hok, hmem⟩ := recover_rows_ops td ["data", t] (bigDataFlags td.desc_table_yaml)
      (insert_stmt t td.desc_table_yaml) t (fileLines td.rows_txt) (applyCreate db1 t) 0
    exact ⟨_, h1.symm, hok ⟨db', h3⟩, hmem⟩

/-- Witness for C7: replaying an empty dumped table executes exactly the
drop and the create, with a three-placeholder-free template. -/
theorem c7_insert_template_witness :
    insert_stmt "t" emptyIntTd.desc_table_yaml =
      "INSERT INTO " ++ "t" ++ " VALUE (" ++
        String.intercalate ", " (placeholdersList emptyIntTd.desc_table_yaml) ++ ")" ∧
    (placeholdersList emptyIntTd.desc_table_yaml).length = emptyIntTd.desc_table_yaml.length ∧
    ∃ inserts,
      [DBOp.exec "DROP TABLE t" none, DBOp.exec "CREATE TABLE t (id int)" none] =
        DBOp.exec ("DROP TABLE " ++ "t") none ::
          DBOp.exec emptyIntTd.create_table_sql none :: inserts ∧
      inserts.length = (fileLines emptyIntTd.rows_txt).length ∧
      ∀ op ∈ inserts, ∃ ps, op = DBOp.exec (insert_stmt "t" emptyIntTd.desc_table_yaml) (some ps) :=
  c7_insert_template ⟨[]⟩ emptyIntTd "t"
    [DBOp.exec "DROP TABLE t" none, DBOp.exec "CREATE TABLE t (id int)" none]
    [FSOp.readFile ["data", "t", "create_table.sql"],
     FSOp.readFile ["data", "t", "desc_table.yaml"],
     FSOp.readFile ["data", "t", "rows.txt"]]
    ⟨[("t", [])]⟩ (by decide)

/-- C8: recover — both the orchestrator and `recover_table` — performs only
filesystem reads, so replaying its filesystem trace leaves any dataset
file map byte-for-byte unchanged. -/
theorem c8_recover_readonly (db : DB) (root : PathState) (entry : DatasetEntry) (t : String)
    (fs : List (List String × String)) :
    ((recover db root).2.1).all FSOp.isRead = true ∧
    applyFSOps fs ((recover db root).2.1) = fs ∧
    ((recover_table db entry t).2.1).all FSOp.isRead = true ∧
    applyFSOps fs ((recover_table db entry t).2.1) = fs := by
  have h1 := recover_reads db root
  have h2 := recover_table_reads db entry t
  exact ⟨List.all_eq_true.mpr h1, applyFSOps_of_reads _ h1 fs,
    List.all_eq_true.mpr h2, applyFSOps_of_reads _ h2 fs⟩

/-- C9: the parameters recover inserts for a row do not depend on the
row-line array entries at long-column positions: two parsed lines equal at
every non-long position decode to identical parameter lists and produce the
identical INSERT call. -/
theorem c9_long_entries_ignored (td : TableDir) (tdir : List String)
    (flags : List (Nat × String)) (n : Nat) (stmt t : String) (db : DB)
    (l1 l2 : String) (d1 d2 : List String)
    (h1 : jsonLoads l1 = some d1) (h2 : jsonLoads l2 = some d2)
    (hlen : d1.length = d2.length)
    (hag : ∀ k ∈ List.range d1.length, List.lookup k flags = none → d1.get? k = d2.get? k) :
    decode_from td tdir flags n 0 d1 = decode_from td tdir flags n 0 d2 ∧
    (recover_rows td tdir flags stmt t db n [l1]).1 =
      (recover_rows td tdir flags stmt t db n [l2]).1 := by
  have hdec : decode_from td tdir flags n 0 d1 = decode_from td tdir flags n 0 d2 := by
    refine decode_from_flagged_only td tdir flags n d1 d2 0 hlen (fun k hk h0 => ?_)
    exact hag k (List.mem_range.mpr hk) (by simpa using h0)
  refine ⟨hdec, ?_⟩
  simp only [recover_rows, h1, h2, hdec]

/-- Witness for C9: two lines differing only in the slot of the long column
at position 1 decode identically. -/
theorem c9_long_entries_ignored_witness :
    decode_from oneSidecarTd ["data", "t"] [(1, "column_bio")] 0 0 ["a", "SECRET"] =
      decode_from oneSidecarTd ["data", "t"] [(1, "column_bio")] 0 0 ["a", "OTHER"] ∧
    (recover_rows oneSidecarTd ["data", "t"] [(1, "column_bio")] "INSERT" "t" ⟨[]⟩ 0
        ["[\"a\", \"SECRET\"]"]).1 =
      (recover_rows oneSidecarTd ["data", "t"] [(1, "column_bio")] "INSERT" "t" ⟨[]⟩ 0
        ["[\"a\", \"OTHER\"]"]).1 :=
  c9_long_entries_ignored oneSidecarTd ["data", "t"] [(1, "column_bio")] 0 "INSERT" "t" ⟨[]⟩
    "[\"a\", \"SECRET\"]" "[\"a\", \"OTHER\"]" ["a", "SECRET"] ["a", "OTHER"]
    (by decide) (by decide) (by decide) (by decide)

/-- C10: a non-directory entry in the dataset root is not skipped:
`recover_table` raises a `RecoverError` with no database operation executed
for that entry, and the orchestrator aborts the remaining entries. -/
theorem c10_nondir_entry_aborts (db db1 : DB) (name content : String)
    (pre post : List (String × DatasetEntry)) (ops : List DBOp) (fs : List FSOp)
    (hpre : recover_tables db pre = (ops, fs, .ok db1)) :
    (∀ db2 : DB, recover_table db2 (.fileEntry content) name =
      ([], [], .error (.recoverError
        ("\"" ++ String.intercalate "/" ["data", name] ++ "\" is not a directory")))) ∧
    recover db (.dirAt (pre ++ (name, .fileEntry content) :: post)) =
      (ops, fs, .error (.recoverError
        ("\"" ++ String.intercalate "/" ["data", name] ++ "\" is not a directory"))) := by
  refine ⟨fun db2 => rfl, ?_⟩
  show recover_tables db (pre ++ (name, .fileEntry content) :: post) = _
  exact recover_tables_abort name content post pre db db1 ops fs hpre

/-- Witness for C10: a dataset root whose only entry is a stray file makes
recover abort with a `RecoverError` and no database operation. -/
theorem c10_nondir_entry_aborts_witness :
    (∀ db2 : DB, recover_table db2 (.fileEntry "junk") "stray" =
      ([], [], .error (.recoverError
        ("\"" ++ String.intercalate "/" ["data", "stray"] ++ "\" is not a directory")))) ∧
    recover ⟨[]⟩ (.dirAt ([] ++ ("stray", .fileEntry "junk") :: [])) =
      ([], [], .error (.recoverError
        ("\"" ++ String.intercalate "/" ["data", "stray"] ++ "\" is not a directory"))) :=
  c10_nondir_entry_aborts ⟨[]⟩ ⟨[]⟩ "stray" "junk" [] [] [] [] (by rfl)

end DBDumper
